import Mathlib

/-!
Verification of the ClusterQueue controller
(`pkg/controller/core/clusterqueue_controller.go`).

We shallowly embed the controller's pure decision logic and its
side-effecting interactions with the object store (client), the admission
cache and the queue manager.  The store of ResourceFlavor objects and the
fallibility of client calls are modelled explicitly in a `World` record;
cache / queue-manager calls are recorded as a trace of side effects.
-/

namespace ClusterQueueCtrl

/-- A flavor entry inside a resource group of a ClusterQueue spec
(`kueue.Flavor`, only the `Name` field matters here). -/
structure Flavor where
  name : String
deriving DecidableEq, Repr

/-- A resource group of a ClusterQueue spec (`kueue.Resource`);
only the list of flavors matters for reference synchronization. -/
structure Resource where
  flavors : List Flavor
deriving DecidableEq, Repr

/-- Spec `kueue.ClusterQueueSpec`, restricted to the `Resources` field. -/
structure ClusterQueueSpec where
  resources : List Resource
deriving DecidableEq, Repr

/-- Object `kueue.ClusterQueue`: cluster-scoped, identified by name. -/
structure ClusterQueue where
  name : String
  spec : ClusterQueueSpec
deriving DecidableEq, Repr

/-- Object `kueue.ResourceFlavor`: a name plus the back-reference index
`ClusterQueues` (a Go map used as a set of queue names; we keep the
key set as a list). -/
structure ResourceFlavor where
  name : String
  clusterQueues : List String
deriving DecidableEq, Repr

/-- The flavor names flattened from all resource groups of a spec:
the loop `for _, res := range spec.Resources { for _, f := range res.Flavors }`
in `updateReferences` (lines 174-184). -/
def flattenFlavors (s : ClusterQueueSpec) : List String :=
  s.resources.flatMap (fun r => r.flavors.map Flavor.name)

/-- The key set of the Go map built from a flattened flavor list
(`oldFlavors` / `newFlavors` in `updateReferences`): each name once. -/
def flavorKeys (s : ClusterQueueSpec) : List String :=
  (flattenFlavors s).dedup

/-- Map `needRemove`: keys of the old flavor map absent from the new one
(lines 186-191). -/
def needRemove (oldS newS : ClusterQueueSpec) : List String :=
  (flavorKeys oldS).filter (fun k => !((flavorKeys newS).contains k))

/-- Map `needAdd`: keys of the new flavor map absent from the old one
(lines 192-197). -/
def needAdd (oldS newS : ClusterQueueSpec) : List String :=
  (flavorKeys newS).filter (fun k => !((flavorKeys oldS).contains k))

/-- The in-memory mutation of one ResourceFlavor in
`updateResourceFlavorReferences` (lines 222-229): with `deletion` true,
`delete(rf.ClusterQueues, cq.Name)`; otherwise
`rf.ClusterQueues[cq.Name] = ""` (set-insert, creating the map if nil). -/
def applyRefChange (cqName : String) (deletion : Bool) (rf : ResourceFlavor) :
    ResourceFlavor :=
  if deletion then
    { rf with clusterQueues := rf.clusterQueues.filter (fun q => q != cqName) }
  else
    if rf.clusterQueues.contains cqName then rf
    else { rf with clusterQueues := cqName :: rf.clusterQueues }

/-- The world visible to the controller through the client: the persisted
ResourceFlavor store, plus fault oracles.  `listFails n` says whether the
`n`-th `client.List` call of the run fails; `updateFails k` says whether
`client.Update` on the flavor named `k` fails.  `listCalls` counts the
`client.List` calls made so far. -/
structure World where
  flavors : List ResourceFlavor
  listFails : Nat → Bool
  updateFails : String → Bool
  listCalls : Nat

/-- The body of the `for k := range objs` loop of
`updateResourceFlavorReferences` (lines 220-236), acting on the persisted
store: if a flavor named `k` exists in the listed snapshot, mutate it and
persist via `client.Update`; a persist failure (`failP k`) is logged and
leaves the store unchanged; a missing flavor is logged and skipped. -/
def processRef (cqName : String) (deletion : Bool) (failP : String → Bool)
    (store : List ResourceFlavor) (k : String) : List ResourceFlavor :=
  if store.any (fun rf => rf.name == k) then
    if failP k then store
    else store.map (fun rf =>
      if rf.name == k then applyRefChange cqName deletion rf else rf)
  else store

/-- Method `updateResourceFlavorReferences` (lines 209-239): one `client.List`
call; on list failure return the error (second component `false`);
otherwise process every key of `objs` best-effort and return success. -/
def updateResourceFlavorReferences (cq : ClusterQueue) (objs : List String)
    (deletion : Bool) (w : World) : World × Bool :=
  if w.listFails w.listCalls then
    ({ w with listCalls := w.listCalls + 1 }, false)
  else
    ({ w with
        listCalls := w.listCalls + 1
        flavors := objs.foldl (processRef cq.name deletion w.updateFails) w.flavors },
      true)

/-- Method `updateReferences` (lines 172-207): compute the two key-set
differences, then run the removal phase followed by the addition phase,
aborting on a phase error. -/
def updateReferences (oldCQ cq : ClusterQueue) (w : World) : World × Bool :=
  let rem := needRemove oldCQ.spec cq.spec
  let add := needAdd oldCQ.spec cq.spec
  let r1 := updateResourceFlavorReferences cq rem true w
  if r1.2 then
    updateResourceFlavorReferences cq add false r1.1
  else
    (r1.1, false)

/-! ### Event gate (Create / Delete / Update / Generic predicates) -/

/-- The payload of a watch event: either a ClusterQueue or some other
resource kind (the Go code's failed type assertion branch). -/
inductive EventObject where
  | clusterQueue (cq : ClusterQueue)
  | other
deriving DecidableEq, Repr

/-- One call made to the Cache or the Queue Manager by an event
predicate, recorded in order. -/
inductive SideEffect where
  | cacheAdd (cqName : String)
  | qmAdd (cqName : String)
  | cacheUpdate (cqName : String)
  | qmUpdate (cqName : String)
  | cacheDelete (cqName : String)
  | qmDelete (cqName : String)
deriving DecidableEq, Repr

/-- Fault oracles for the Cache / Queue Manager calls whose errors the
predicates only log. -/
structure GateFaults where
  cacheAddFails : Bool
  qmAddFails : Bool
  cacheUpdateFails : Bool
  qmUpdateFails : Bool
deriving DecidableEq, Repr

/-- Result of an event predicate: the boolean admission decision, the
world after any reference synchronization, the Cache/QueueManager calls
made, and the error messages logged. -/
structure GateResult where
  allow : Bool
  world : World
  effects : List SideEffect
  logs : List String

/-- An empty ClusterQueue, `&kueue.ClusterQueue{}` (line 110). -/
def emptyCQ : ClusterQueue := { name := "", spec := { resources := [] } }

/-- Predicate `Create` (lines 100-123): non-ClusterQueue objects pass through; a
reference-synchronization failure suppresses admission before any
Cache/QueueManager call; otherwise `cache.AddClusterQueue` and
`qManager.AddClusterQueue` are called, their errors only logged, and the
event is admitted. -/
def createGate (faults : GateFaults) (e : EventObject) (w : World) : GateResult :=
  match e with
  | .other => ⟨true, w, [], []⟩
  | .clusterQueue cq =>
    let r := updateReferences emptyCQ cq w
    if r.2 then
      ⟨true, r.1, [.cacheAdd cq.name, .qmAdd cq.name],
        (if faults.cacheAddFails then ["Failed to add clusterQueue to cache"] else []) ++
        (if faults.qmAddFails then ["Failed to add clusterQueue to queue manager"] else [])⟩
    else
      ⟨false, r.1, [], ["Failed to update resource flavor reference"]⟩

/-- Predicate `Delete` (lines 125-143): non-ClusterQueue objects pass through; the
references are synchronized against a deep copy with an emptied spec; on
failure the predicate returns `false` before touching the Cache or the
Queue Manager; on success both deletes run and the event is admitted. -/
def deleteGate (e : EventObject) (w : World) : GateResult :=
  match e with
  | .other => ⟨true, w, [], []⟩
  | .clusterQueue cq =>
    let newCq : ClusterQueue := { cq with spec := { resources := [] } }
    let r := updateReferences cq newCq w
    if r.2 then
      ⟨true, r.1, [.cacheDelete cq.name, .qmDelete cq.name], []⟩
    else
      ⟨false, r.1, [], ["Fail to remove resource flavor reference"]⟩

/-- Predicate `Update` (lines 145-170): if the new object is not a ClusterQueue,
pass through.  Reference synchronization runs only when the old object is
also a ClusterQueue and the `Spec.Resources` fields differ
(`reflect.DeepEqual`); its failure returns `false`.  Otherwise
`cache.UpdateClusterQueue` and `qManager.UpdateClusterQueue` run with
errors only logged, and the event is admitted. -/
def updateGate (faults : GateFaults) (eOld eNew : EventObject) (w : World) :
    GateResult :=
  match eNew with
  | .other => ⟨true, w, [], []⟩
  | .clusterQueue cq =>
    let afterSync : World × Bool :=
      match eOld with
      | .clusterQueue oldCQ =>
        if oldCQ.spec.resources ≠ cq.spec.resources then
          updateReferences oldCQ cq w
        else (w, true)
      | .other => (w, true)
    if afterSync.2 then
      ⟨true, afterSync.1, [.cacheUpdate cq.name, .qmUpdate cq.name],
        (if faults.cacheUpdateFails then ["Failed to update clusterQueue in cache"] else []) ++
        (if faults.qmUpdateFails then ["Failed to update clusterQueue in queue manager"] else [])⟩
    else
      ⟨false, afterSync.1, [], ["Fail to update resource flavor reference"]⟩

/-! ### Reconcile and status computation -/

/-- Status `kueue.ClusterQueueStatus`: used resources as a string-keyed map
(kept as an association list), plus the two counters. -/
structure ClusterQueueStatus where
  usedResources : List (String × Int)
  admittedWorkloads : Int
  pendingWorkloads : Int
deriving DecidableEq, Repr

/-- Order-independent equality of two string-keyed maps represented as
association lists: same keys, same values under lookup. -/
def mapSemEq (a b : List (String × Int)) : Bool :=
  a.all (fun p => b.lookup p.1 == some p.2) &&
  b.all (fun p => a.lookup p.1 == some p.2)

/-- Comparison `equality.Semantic.DeepEqual` on two statuses (line 84): field-wise,
with the mapping-typed `UsedResources` field compared
order-independently. -/
def statusSemEq (s t : ClusterQueueStatus) : Bool :=
  mapSemEq s.usedResources t.usedResources &&
  s.admittedWorkloads == t.admittedWorkloads &&
  s.pendingWorkloads == t.pendingWorkloads

/-- Outcome of `client.Get` at the start of `Reconcile`. -/
inductive GetOutcome where
  | found (persisted : ClusterQueueStatus)
  | notFound
  | otherError
deriving DecidableEq, Repr

/-- Outcome of the `client.Status().Update` write. -/
inductive WriteOutcome where
  | ok
  | conflict
  | notFoundErr
  | otherError
deriving DecidableEq, Repr

/-- The error, if any, returned by one `Reconcile` invocation. -/
inductive ReconcileError where
  | getError
  | statusError
  | writeConflict
  | writeOther
deriving DecidableEq, Repr

/-- Environment of one `Reconcile` invocation: what the external calls
would return. -/
structure ReconcileEnv where
  getOutcome : GetOutcome
  statusOutcome : Option ClusterQueueStatus
  writeOutcome : WriteOutcome

/-- What one `Reconcile` invocation produced: the returned error (`none`
is success) and the list of status writes issued. -/
structure ReconcileResult where
  err : Option ReconcileError
  writes : List ClusterQueueStatus
deriving DecidableEq, Repr

/-- Method `Reconcile` (lines 68-91): get the object (not-found is ignored),
compute the status (errors surface), compare with
`equality.Semantic.DeepEqual`; on inequality issue one status write whose
not-found error is ignored (`client.IgnoreNotFound`) and whose other
errors propagate. -/
def reconcile (env : ReconcileEnv) : ReconcileResult :=
  match env.getOutcome with
  | .notFound => ⟨none, []⟩
  | .otherError => ⟨some .getError, []⟩
  | .found persisted =>
    match env.statusOutcome with
    | none => ⟨some .statusError, []⟩
    | some status =>
      if statusSemEq status persisted then ⟨none, []⟩
      else
        match env.writeOutcome with
        | .ok => ⟨none, [status]⟩
        | .notFoundErr => ⟨none, [status]⟩
        | .conflict => ⟨some .writeConflict, [status]⟩
        | .otherError => ⟨some .writeOther, [status]⟩

/-! ### Workload event bridge -/

/-- Object `kueue.Workload`, restricted to what the bridge reads: its optional
admission record's ClusterQueue name. -/
structure Workload where
  name : String
  admission : Option String

/-- Method `requestForWorkloadClusterQueue` (lines 271-287): an admitted
workload targets its admission's queue; otherwise the Queue Manager
(`qm`, modelling `qManager.ClusterQueueForWorkload`) resolves the owner,
and an unknown workload yields no request. -/
def requestForWorkloadClusterQueue (qm : Workload → Option String)
    (w : Workload) : Option String :=
  match w.admission with
  | some q => some q
  | none => qm w

/-- Handler `cqWorkloadHandler.Generic` (lines 263-269): enqueue one debounced
reconcile request when a target queue resolves, none otherwise. -/
def workloadGenericHandle (qm : Workload → Option String) (w : Workload) :
    List String :=
  match requestForWorkloadClusterQueue qm w with
  | some name => [name]
  | none => []

/-! ### Derived forms used in statements -/

/-- Pointwise form of one loop iteration of
`updateResourceFlavorReferences`, acting on a single flavor: used to
re-express the store fold as a map. -/
def stepFlavor (cqName : String) (deletion : Bool) (failP : String → Bool)
    (rf : ResourceFlavor) (k : String) : ResourceFlavor :=
  if failP k then rf
  else if rf.name == k then applyRefChange cqName deletion rf else rf

/-- Net effect of one phase (removal or addition) of reference
synchronization on a single flavor of the store. -/
def phaseFlavor (cqName : String) (deletion : Bool) (failP : String → Bool)
    (objs : List String) (rf : ResourceFlavor) : ResourceFlavor :=
  if rf.name ∈ objs ∧ failP rf.name = false then applyRefChange cqName deletion rf
  else rf

/-- Net effect of a whole successful reference synchronization on a
single flavor whose own persist does not fail. -/
def syncedFlavor (oldS newS : ClusterQueueSpec) (cqName : String)
    (rf : ResourceFlavor) : ResourceFlavor :=
  if rf.name ∈ needRemove oldS newS then applyRefChange cqName true rf
  else if rf.name ∈ needAdd oldS newS then applyRefChange cqName false rf
  else rf

/-! ### Concrete fixtures for counterexamples and witnesses -/

/-- A queue whose spec references flavors `f1` and `f3`. -/
def cqOldW : ClusterQueue :=
  { name := "cq1"
    spec := { resources := [{ flavors := [{ name := "f1" }, { name := "f3" }] }] } }

/-- The same queue after a spec change: flavors `f2` and `f3`. -/
def cqNewW : ClusterQueue :=
  { name := "cq1"
    spec := { resources := [{ flavors := [{ name := "f2" }, { name := "f3" }] }] } }

/-- A flavor store containing `f1`, `f2` and `f3`. -/
def storeW : List ResourceFlavor :=
  [{ name := "f1", clusterQueues := ["cq1", "other"] },
   { name := "f2", clusterQueues := ["other"] },
   { name := "f3", clusterQueues := ["cq1"] }]

/-- A world in which every client call succeeds. -/
def wNoFail : World :=
  { flavors := storeW
    listFails := fun _ => false
    updateFails := fun _ => false
    listCalls := 0 }

/-- A world in which the first `client.List` call fails. -/
def wFirstListFails : World :=
  { flavors := storeW
    listFails := fun n => n == 0
    updateFails := fun _ => false
    listCalls := 0 }

/-- A world in which only the second `client.List` call fails. -/
def wSecondListFails : World :=
  { flavors := storeW
    listFails := fun n => n == 1
    updateFails := fun _ => false
    listCalls := 0 }

/-- A world in which persisting flavor `f1` fails and everything else
succeeds. -/
def wPersistFail : World :=
  { flavors := storeW
    listFails := fun _ => false
    updateFails := fun k => k == "f1"
    listCalls := 0 }

/-- Faults making every Cache / Queue Manager call fail. -/
def faultsAll : GateFaults :=
  { cacheAddFails := true, qmAddFails := true
    cacheUpdateFails := true, qmUpdateFails := true }

/-- A reconcile environment whose computed status equals the persisted
one up to map ordering. -/
def envPermuted : ReconcileEnv :=
  { getOutcome := .found
      { usedResources := [("cpu", 2), ("mem", 5)]
        admittedWorkloads := 1, pendingWorkloads := 3 }
    statusOutcome := some
      { usedResources := [("mem", 5), ("cpu", 2)]
        admittedWorkloads := 1, pendingWorkloads := 3 }
    writeOutcome := .otherError }

/-- A reconcile environment with a genuine status change whose write
hits a conflict. -/
def envConflict : ReconcileEnv :=
  { getOutcome := .found
      { usedResources := [("cpu", 2)], admittedWorkloads := 1, pendingWorkloads := 3 }
    statusOutcome := some
      { usedResources := [("cpu", 2)], admittedWorkloads := 1, pendingWorkloads := 4 }
    writeOutcome := .conflict }

/-- A reconcile environment with a genuine status change whose write
reports the object missing. -/
def envNotFoundWrite : ReconcileEnv :=
  { getOutcome := .found
      { usedResources := [("cpu", 2)], admittedWorkloads := 1, pendingWorkloads := 3 }
    statusOutcome := some
      { usedResources := [("cpu", 2)], admittedWorkloads := 1, pendingWorkloads := 4 }
    writeOutcome := .notFoundErr }

/-- A workload carrying an admission record naming queue `cqA`. -/
def wlAdmitted : Workload := { name := "wl1", admission := some "cqA" }

/-- A queue manager that knows no workload. -/
def qmNone : Workload → Option String := fun _ => none

/-! ### Lemmas about the reference-synchronization fold -/

lemma applyRefChange_name (c : String) (d : Bool) (rf : ResourceFlavor) :
    (applyRefChange c d rf).name = rf.name := by
  unfold applyRefChange
  split
  · rfl
  · split <;> rfl

lemma applyRefChange_idem (c : String) (d : Bool) (rf : ResourceFlavor) :
    applyRefChange c d (applyRefChange c d rf) = applyRefChange c d rf := by
  cases d with
  | true =>
    simp [applyRefChange, List.filter_filter]
  | false =>
    by_cases h : c ∈ rf.clusterQueues
    · simp [applyRefChange, h]
    · simp [applyRefChange, h]

lemma stepFlavor_name (c : String) (d : Bool) (f : String → Bool)
    (rf : ResourceFlavor) (k : String) :
    ( stepFlavor c d f rf k).name = rf.name := by
  unfold stepFlavor
  split
  · rfl
  · split
    · exact applyRefChange_name c d rf
    · rfl

lemma foldl_stepFlavor_eq (c : String) (d : Bool) (f : String → Bool)
    (objs : List String) (rf : ResourceFlavor) :
    objs.foldl ( stepFlavor c d f) rf = phaseFlavor c d f objs rf := by
  unfold phaseFlavor
  induction objs generalizing rf with
  | nil => simp
  | cons k ks ih =>
    rw [List.foldl_cons]
    by_cases hf : f k = true
    · have hstep : stepFlavor c d f rf k = rf := by
        unfold stepFlavor; simp [hf]
      rw [hstep, ih]
      by_cases hk : rf.name = k
      · simp [hk, hf]
      · simp [hk]
    · by_cases hk : rf.name = k
      · have hstep : stepFlavor c d f rf k = applyRefChange c d rf := by
          unfold stepFlavor; simp [hf, hk]
        rw [hstep, ih, applyRefChange_name]
        have hcond : rf.name ∈ k :: ks ∧ f rf.name = false := by
          constructor
          · simp [hk]
          · rw [hk]; simpa using hf
        rw [if_pos hcond]
        split
        · exact applyRefChange_idem c d rf
        · rfl
      · have hstep : stepFlavor c d f rf k = rf := by
          unfold stepFlavor; simp [hf, hk]
        rw [hstep, ih]
        simp [hk]

lemma processRef_eq (c : String) (d : Bool) (f : String → Bool)
    (store : List ResourceFlavor) (k : String) :
    processRef c d f store k =
      if f k then store
      else store.map (fun rf => if rf.name == k then applyRefChange c d rf else rf) := by
  unfold processRef
  by_cases hany : store.any (fun rf => rf.name == k) = true
  · rw [if_pos hany]
  · rw [if_neg hany]
    by_cases hf : f k = true
    · simp [hf]
    · rw [if_neg hf]
      have hnone : ∀ rf ∈ store,
          (if rf.name == k then applyRefChange c d rf else rf) = rf := by
        intro rf hrf
        have : ¬(rf.name == k) = true := fun h => hany (List.any_eq_true.mpr ⟨rf, hrf, h⟩)
        simp [this]
      rw [List.map_congr_left hnone]
      simp

lemma foldl_processRef_eq_map (c : String) (d : Bool) (f : String → Bool)
    (objs : List String) (store : List ResourceFlavor) :
    objs.foldl (processRef c d f) store =
      store.map (fun rf => objs.foldl ( stepFlavor c d f) rf) := by
  induction objs generalizing store with
  | nil => simp
  | cons k ks ih =>
    rw [List.foldl_cons, ih, processRef_eq]
    by_cases hf : f k = true
    · rw [if_pos hf]
      refine List.map_congr_left (fun rf _ => ?_)
      rw [List.foldl_cons]
      have : stepFlavor c d f rf k = rf := by unfold stepFlavor; simp [hf]
      rw [this]
    · rw [if_neg hf, List.map_map]
      refine List.map_congr_left (fun rf _ => ?_)
      rw [Function.comp_apply, List.foldl_cons]
      have : stepFlavor c d f rf k =
          (if rf.name == k then applyRefChange c d rf else rf) := by
        unfold stepFlavor; simp [hf]
      rw [this]

lemma foldl_processRef_phase (c : String) (d : Bool) (f : String → Bool)
    (objs : List String) (store : List ResourceFlavor) :
    objs.foldl (processRef c d f) store = store.map (phaseFlavor c d f objs) := by
  rw [foldl_processRef_eq_map]
  exact List.map_congr_left (fun rf _ => foldl_stepFlavor_eq c d f objs rf)

lemma phaseFlavor_name (c : String) (d : Bool) (f : String → Bool)
    (objs : List String) (rf : ResourceFlavor) :
    (phaseFlavor c d f objs rf).name = rf.name := by
  unfold phaseFlavor
  split
  · exact applyRefChange_name c d rf
  · rfl

/-- Full case analysis of `updateReferences`: which of the two
`client.List` calls fails decides the outcome, and each phase acts on the
store as a pointwise map. -/
lemma updateReferences_eq (oldCQ cq : ClusterQueue) (w : World) :
    updateReferences oldCQ cq w =
      if w.listFails w.listCalls then
        ({ w with listCalls := w.listCalls + 1 }, false)
      else if w.listFails (w.listCalls + 1) then
        ({ w with
            listCalls := w.listCalls + 1 + 1
            flavors := w.flavors.map
              (phaseFlavor cq.name true w.updateFails (needRemove oldCQ.spec cq.spec)) },
          false)
      else
        ({ w with
            listCalls := w.listCalls + 1 + 1
            flavors := (w.flavors.map
                (phaseFlavor cq.name true w.updateFails (needRemove oldCQ.spec cq.spec))).map
              (phaseFlavor cq.name false w.updateFails (needAdd oldCQ.spec cq.spec)) },
          true) := by
  unfold updateReferences updateResourceFlavorReferences
  by_cases h1 : w.listFails w.listCalls = true
  · simp [h1]
  · by_cases h2 : w.listFails (w.listCalls + 1) = true
    · simp [h1, h2, foldl_processRef_phase]
    · simp [h1, h2, foldl_processRef_phase]

lemma mem_needRemove (oldS newS : ClusterQueueSpec) (k : String) :
    k ∈ needRemove oldS newS ↔
      (k ∈ flattenFlavors oldS ∧ k ∉ flattenFlavors newS) := by
  unfold needRemove flavorKeys
  simp [List.mem_filter, List.mem_dedup]

lemma mem_needAdd (oldS newS : ClusterQueueSpec) (k : String) :
    k ∈ needAdd oldS newS ↔
      (k ∈ flattenFlavors newS ∧ k ∉ flattenFlavors oldS) := by
  unfold needAdd flavorKeys
  simp [List.mem_filter, List.mem_dedup]

/-- Membership in a flavor's referencing set after the in-memory removal. -/
lemma mem_applyRefChange_del (c : String) (rf : ResourceFlavor) (q : String) :
    q ∈ (applyRefChange c true rf).clusterQueues ↔
      (q ∈ rf.clusterQueues ∧ q ≠ c) := by
  simp [applyRefChange, List.mem_filter]

/-- Membership in a flavor's referencing set after the in-memory insert. -/
lemma mem_applyRefChange_add (c : String) (rf : ResourceFlavor) (q : String) :
    q ∈ (applyRefChange c false rf).clusterQueues ↔
      (q ∈ rf.clusterQueues ∨ q = c) := by
  by_cases h : c ∈ rf.clusterQueues
  · simp [applyRefChange, h]
    intro hq
    rw [hq]
    exact h
  · simp [applyRefChange, h, List.mem_cons]
    tauto

/-- Queue names other than the synchronizing queue's own are untouched by
the in-memory mutation. -/
lemma frame_applyRefChange (c : String) (d : Bool) (rf : ResourceFlavor)
    (q : String) (hq : q ≠ c) :
    q ∈ (applyRefChange c d rf).clusterQueues ↔ q ∈ rf.clusterQueues := by
  cases d with
  | true => simp [mem_applyRefChange_del, hq]
  | false => simp [mem_applyRefChange_add, hq]

lemma frame_phaseFlavor (c : String) (d : Bool) (f : String → Bool)
    (objs : List String) (rf : ResourceFlavor) (q : String) (hq : q ≠ c) :
    q ∈ (phaseFlavor c d f objs rf).clusterQueues ↔ q ∈ rf.clusterQueues := by
  unfold phaseFlavor
  split
  · exact frame_applyRefChange c d rf q hq
  · exact Iff.rfl

lemma syncedFlavor_name (oldS newS : ClusterQueueSpec) (c : String)
    (rf : ResourceFlavor) :
    (syncedFlavor oldS newS c rf).name = rf.name := by
  unfold syncedFlavor
  split
  · exact applyRefChange_name c true rf
  · split
    · exact applyRefChange_name c false rf
    · rfl

/-- On a flavor whose own persist does not fail, the two phases compose
to the full synchronization outcome. -/
lemma phase_comp_synced (oldS newS : ClusterQueueSpec) (c : String)
    (f : String → Bool) (rf : ResourceFlavor) (hf : f rf.name = false) :
    phaseFlavor c false f (needAdd oldS newS)
        (phaseFlavor c true f (needRemove oldS newS) rf) =
      syncedFlavor oldS newS c rf := by
  by_cases h1 : rf.name ∈ needRemove oldS newS
  · have hinner : phaseFlavor c true f (needRemove oldS newS) rf =
        applyRefChange c true rf := by
      unfold phaseFlavor
      rw [if_pos ⟨h1, hf⟩]
    have h2 : (applyRefChange c true rf).name ∉ needAdd oldS newS := by
      rw [applyRefChange_name]
      intro hmem
      exact ((mem_needRemove oldS newS rf.name).mp h1).2
        ((mem_needAdd oldS newS rf.name).mp hmem).1
    have houter : phaseFlavor c false f (needAdd oldS newS)
        (applyRefChange c true rf) = applyRefChange c true rf := by
      unfold phaseFlavor
      rw [if_neg (fun hc => h2 hc.1)]
    rw [hinner, houter]
    unfold syncedFlavor
    rw [if_pos h1]
  · have hinner : phaseFlavor c true f (needRemove oldS newS) rf = rf := by
      unfold phaseFlavor
      rw [if_neg (fun hc => h1 hc.1)]
    rw [hinner]
    by_cases h2 : rf.name ∈ needAdd oldS newS
    · have houter : phaseFlavor c false f (needAdd oldS newS) rf =
          applyRefChange c false rf := by
        unfold phaseFlavor
        rw [if_pos ⟨h2, hf⟩]
      rw [houter]
      unfold syncedFlavor
      rw [if_neg h1, if_pos h2]
    · have houter : phaseFlavor c false f (needAdd oldS newS) rf = rf := by
        unfold phaseFlavor
        rw [if_neg (fun hc => h2 hc.1)]
      rw [houter]
      unfold syncedFlavor
      rw [if_neg h1, if_neg h2]

lemma updateReferences_success_iff (oldCQ cq : ClusterQueue) (w : World) :
    (updateReferences oldCQ cq w).2 = true ↔
      (w.listFails w.listCalls = false ∧ w.listFails (w.listCalls + 1) = false) := by
  rw [updateReferences_eq]
  by_cases h1 : w.listFails w.listCalls = true
  · simp [h1]
  · by_cases h2 : w.listFails (w.listCalls + 1) = true
    · simp [h1, h2]
    · simp [h1, h2]

lemma updateReferences_listCalls_success (oldCQ cq : ClusterQueue) (w : World)
    (h : (updateReferences oldCQ cq w).2 = true) :
    (updateReferences oldCQ cq w).1.listCalls = w.listCalls + 1 + 1 := by
  obtain ⟨h1, h2⟩ := (updateReferences_success_iff oldCQ cq w).mp h
  rw [updateReferences_eq]
  simp [h1, h2]

lemma updateReferences_flavors_success (oldCQ cq : ClusterQueue) (w : World)
    (h : (updateReferences oldCQ cq w).2 = true) :
    (updateReferences oldCQ cq w).1.flavors =
      w.flavors.map (fun rf =>
        phaseFlavor cq.name false w.updateFails (needAdd oldCQ.spec cq.spec)
          (phaseFlavor cq.name true w.updateFails (needRemove oldCQ.spec cq.spec) rf)) := by
  obtain ⟨h1, h2⟩ := (updateReferences_success_iff oldCQ cq w).mp h
  rw [updateReferences_eq]
  simp [h1, h2, List.map_map, Function.comp]

lemma updateReferences_flavors_firstFail (oldCQ cq : ClusterQueue) (w : World)
    (h : w.listFails w.listCalls = true) :
    (updateReferences oldCQ cq w).1.flavors = w.flavors := by
  rw [updateReferences_eq]
  simp [h]

lemma updateReferences_secondFail (oldCQ cq : ClusterQueue) (w : World)
    (h1 : w.listFails w.listCalls = false)
    (h2 : w.listFails (w.listCalls + 1) = true) :
    (updateReferences oldCQ cq w).2 = false ∧
      (updateReferences oldCQ cq w).1.flavors =
        w.flavors.map
          (phaseFlavor cq.name true w.updateFails (needRemove oldCQ.spec cq.spec)) := by
  rw [updateReferences_eq]
  simp [h1, h2]

/-! ### Claim theorems -/

/-- C3 (corrected): a successful reference synchronization fetches the
flavor list exactly twice — one `client.List` call per phase (removal
phase and addition phase), independent of the number of identifiers. -/
theorem refSync_list_call_count (oldCQ cq : ClusterQueue) (w : World)
    (h : (updateReferences oldCQ cq w).2 = true) :
    (updateReferences oldCQ cq w).1.listCalls = w.listCalls + 1 + 1 :=
  updateReferences_listCalls_success oldCQ cq w h

/-- C3 witness: on the concrete spec change `cqOldW → cqNewW` with no
faults, the synchronization makes exactly two list calls. -/
theorem refSync_list_call_count_witness :
    (updateReferences cqOldW cqNewW wNoFail).1.listCalls = wNoFail.listCalls + 1 + 1 :=
  refSync_list_call_count cqOldW cqNewW wNoFail (by decide)

/-- C3 counterexample: with non-empty `toRemove` and non-empty `toAdd`,
a successful synchronization does not make a single list call — the
count after the operation is not `before + 1`. -/
theorem refSync_single_list_claim_cex :
    needRemove cqOldW.spec cqNewW.spec ≠ [] ∧
    needAdd cqOldW.spec cqNewW.spec ≠ [] ∧
    (updateReferences cqOldW cqNewW wNoFail).2 = true ∧
    (updateReferences cqOldW cqNewW wNoFail).1.listCalls ≠ wNoFail.listCalls + 1 := by
  decide

/-- C4 (corrected): on a delete notification for a queue resource, the
Cache and Queue Manager removals happen exactly when reference
synchronization succeeds; when it fails, the predicate returns `false`
and neither removal is performed. -/
theorem deleteGate_removal_requires_sync (cq : ClusterQueue) (w : World) :
    ((updateReferences cq { cq with spec := { resources := [] } } w).2 = true →
      (deleteGate (.clusterQueue cq) w).allow = true ∧
      (deleteGate (.clusterQueue cq) w).effects =
        [SideEffect.cacheDelete cq.name, SideEffect.qmDelete cq.name]) ∧
    ((updateReferences cq { cq with spec := { resources := [] } } w).2 = false →
      (deleteGate (.clusterQueue cq) w).allow = false ∧
      (deleteGate (.clusterQueue cq) w).effects = []) := by
  unfold deleteGate
  constructor
  · intro h
    simp [h]
  · intro h
    simp [h]

/-- C4 witness: on the concrete queue `cqOldW` with no faults, the
delete predicate admits and removes from both subsystems. -/
theorem deleteGate_removal_requires_sync_witness :
    (deleteGate (.clusterQueue cqOldW) wNoFail).allow = true ∧
    (deleteGate (.clusterQueue cqOldW) wNoFail).effects =
      [SideEffect.cacheDelete cqOldW.name, SideEffect.qmDelete cqOldW.name] :=
  (deleteGate_removal_requires_sync cqOldW wNoFail).1 (by decide)

/-- C4 counterexample: when reference synchronization fails (the list
call fails), the delete predicate performs no Cache or Queue Manager
removal at all — the removal is not unconditional. -/
theorem deleteGate_unconditional_removal_cex :
    (deleteGate (.clusterQueue cqOldW) wFirstListFails).allow = false ∧
    (deleteGate (.clusterQueue cqOldW) wFirstListFails).effects = [] := by
  decide

/-- C5: on a create notification for a queue resource, a reference
synchronization failure returns `false` before any Cache/QueueManager
call; on success, both adds are attempted and the predicate returns
`true` for every fault configuration of those adds. -/
theorem createGate_error_policy (faults : GateFaults) (cq : ClusterQueue)
    (w : World) :
    ((updateReferences emptyCQ cq w).2 = false →
      (createGate faults (.clusterQueue cq) w).allow = false ∧
      (createGate faults (.clusterQueue cq) w).effects = []) ∧
    ((updateReferences emptyCQ cq w).2 = true →
      (createGate faults (.clusterQueue cq) w).allow = true ∧
      (createGate faults (.clusterQueue cq) w).effects =
        [SideEffect.cacheAdd cq.name, SideEffect.qmAdd cq.name]) := by
  unfold createGate
  constructor
  · intro h
    simp [h]
  · intro h
    simp [h]

/-- C5 witness: even when both the Cache add and the Queue Manager add
fail, a create with successful reference synchronization is admitted. -/
theorem createGate_error_policy_witness :
    (createGate faultsAll (.clusterQueue cqNewW) wNoFail).allow = true ∧
    (createGate faultsAll (.clusterQueue cqNewW) wNoFail).effects =
      [SideEffect.cacheAdd cqNewW.name, SideEffect.qmAdd cqNewW.name] :=
  (createGate_error_policy faultsAll cqNewW wNoFail).2 (by decide)

/-- C6: when the computed status is semantically equal to the persisted
one (order-independent on the used-resources map) the reconcile issues
no write and succeeds; when they differ it issues exactly one write
carrying the computed status. -/
theorem reconcile_write_iff_changed (env : ReconcileEnv)
    (persisted status : ClusterQueueStatus)
    (hget : env.getOutcome = .found persisted)
    (hst : env.statusOutcome = some status) :
    (statusSemEq status persisted = true →
      reconcile env = { err := none, writes := [] }) ∧
    (statusSemEq status persisted = false →
      (reconcile env).writes = [status]) := by
  unfold reconcile
  rw [hget, hst]
  constructor
  · intro h
    simp [h]
  · intro h
    simp [h]
    cases env.writeOutcome <;> simp

/-- C6 witness: a persisted and a computed status whose used-resources
maps list the same entries in different orders trigger no write. -/
theorem reconcile_write_iff_changed_witness :
    reconcile envPermuted = { err := none, writes := [] } :=
  (reconcile_write_iff_changed envPermuted
    { usedResources := [("cpu", 2), ("mem", 5)]
      admittedWorkloads := 1, pendingWorkloads := 3 }
    { usedResources := [("mem", 5), ("cpu", 2)]
      admittedWorkloads := 1, pendingWorkloads := 3 }
    rfl rfl).1 (by decide)

/-- C7 (corrected): on a status write, only a not-found error is
swallowed (`client.IgnoreNotFound`); a conflict error is propagated like
any other error. -/
theorem reconcile_write_error_policy (env : ReconcileEnv)
    (persisted status : ClusterQueueStatus)
    (hget : env.getOutcome = .found persisted)
    (hst : env.statusOutcome = some status)
    (hneq : statusSemEq status persisted = false) :
    (env.writeOutcome = .ok →
      reconcile env = { err := none, writes := [status] }) ∧
    (env.writeOutcome = .notFoundErr →
      reconcile env = { err := none, writes := [status] }) ∧
    (env.writeOutcome = .conflict →
      reconcile env = { err := some .writeConflict, writes := [status] }) ∧
    (env.writeOutcome = .otherError →
      reconcile env = { err := some .writeOther, writes := [status] }) := by
  refine ⟨fun h => ?_, fun h => ?_, fun h => ?_, fun h => ?_⟩ <;>
    simp [reconcile, hget, hst, hneq, h]

/-- C7 witness: a not-found error on the status write is swallowed — the
write is issued and the invocation still succeeds. -/
theorem reconcile_write_error_policy_witness :
    reconcile envNotFoundWrite =
      { err := none
        writes := [{ usedResources := [("cpu", 2)]
                     admittedWorkloads := 1, pendingWorkloads := 4 }] } :=
  (reconcile_write_error_policy envNotFoundWrite
    { usedResources := [("cpu", 2)], admittedWorkloads := 1, pendingWorkloads := 3 }
    { usedResources := [("cpu", 2)], admittedWorkloads := 1, pendingWorkloads := 4 }
    rfl rfl (by decide)).2.1 rfl

/-- C7 counterexample: a conflict error on the status write is not
swallowed — the write is issued and the invocation returns an error. -/
theorem reconcile_conflict_swallowed_cex :
    (reconcile envConflict).writes ≠ [] ∧ (reconcile envConflict).err ≠ none := by
  decide

/-- C8: the workload bridge targets the admission record's queue when
present, otherwise the queue the Queue Manager reports; when it reports
none, no reconcile request is enqueued. -/
theorem workloadBridge_resolution (qm : Workload → Option String) (wl : Workload) :
    (∀ q, wl.admission = some q → workloadGenericHandle qm wl = [q]) ∧
    (wl.admission = none → ∀ q, qm wl = some q → workloadGenericHandle qm wl = [q]) ∧
    (wl.admission = none → qm wl = none → workloadGenericHandle qm wl = []) := by
  refine ⟨?_, ?_, ?_⟩
  · intro q hq
    simp [workloadGenericHandle, requestForWorkloadClusterQueue, hq]
  · intro hn q hq
    simp [workloadGenericHandle, requestForWorkloadClusterQueue, hn, hq]
  · intro hn hq
    simp [workloadGenericHandle, requestForWorkloadClusterQueue, hn, hq]

/-- C8 witness: an admitted workload is routed to its admission record's
queue even when the Queue Manager knows nothing about it. -/
theorem workloadBridge_resolution_witness :
    workloadGenericHandle qmNone wlAdmitted = ["cqA"] :=
  (workloadBridge_resolution qmNone wlAdmitted).1 "cqA" rfl

/-- C10: an update notification whose new object is a queue resource but
whose old object is not skips reference synchronization (the world is
untouched, so no list call happens), still updates Cache and Queue
Manager, and is admitted. -/
theorem updateGate_old_type_mismatch (faults : GateFaults) (cq : ClusterQueue)
    (w : World) :
    (updateGate faults .other (.clusterQueue cq) w).allow = true ∧
    (updateGate faults .other (.clusterQueue cq) w).world = w ∧
    (updateGate faults .other (.clusterQueue cq) w).effects =
      [SideEffect.cacheUpdate cq.name, SideEffect.qmUpdate cq.name] :=
  ⟨rfl, rfl, rfl⟩

/-- C1: after a successful reference synchronization with no persist
fault, pairing the store before and after position-wise: every existing
flavor whose name lies in the old-but-not-new set has the queue's name
removed (absent afterwards, all other entries kept), every one in the
new-but-not-old set has it added (present afterwards, all other entries
kept), and every one in both sets is left entirely unmodified. -/
theorem refSync_symmetric_difference (oldCQ cq : ClusterQueue) (w : World)
    (hok : (updateReferences oldCQ cq w).2 = true)
    (hfail : ∀ k, w.updateFails k = false) :
    List.Forall₂ (fun rf rf' =>
      rf'.name = rf.name ∧
      (rf.name ∈ flattenFlavors oldCQ.spec → rf.name ∉ flattenFlavors cq.spec →
        cq.name ∉ rf'.clusterQueues ∧
        ∀ q, q ≠ cq.name → (q ∈ rf'.clusterQueues ↔ q ∈ rf.clusterQueues)) ∧
      (rf.name ∈ flattenFlavors cq.spec → rf.name ∉ flattenFlavors oldCQ.spec →
        cq.name ∈ rf'.clusterQueues ∧
        ∀ q, q ≠ cq.name → (q ∈ rf'.clusterQueues ↔ q ∈ rf.clusterQueues)) ∧
      (rf.name ∈ flattenFlavors oldCQ.spec → rf.name ∈ flattenFlavors cq.spec →
        rf' = rf))
      w.flavors (updateReferences oldCQ cq w).1.flavors := by
  rw [updateReferences_flavors_success oldCQ cq w hok,
    List.forall₂_map_right_iff, List.forall₂_same]
  intro rf _
  rw [phase_comp_synced oldCQ.spec cq.spec cq.name w.updateFails rf (hfail rf.name)]
  refine ⟨syncedFlavor_name oldCQ.spec cq.spec cq.name rf, ?_, ?_, ?_⟩
  · intro hA hB
    have hR : rf.name ∈ needRemove oldCQ.spec cq.spec :=
      (mem_needRemove oldCQ.spec cq.spec rf.name).mpr ⟨hA, hB⟩
    have hsync : syncedFlavor oldCQ.spec cq.spec cq.name rf =
        applyRefChange cq.name true rf := by
      unfold syncedFlavor
      rw [if_pos hR]
    rw [hsync]
    constructor
    · rw [mem_applyRefChange_del]
      rintro ⟨-, hne⟩
      exact hne rfl
    · intro q hq
      rw [mem_applyRefChange_del]
      exact ⟨fun h => h.1, fun h => ⟨h, hq⟩⟩
  · intro hB hA
    have hNR : rf.name ∉ needRemove oldCQ.spec cq.spec := fun hmem =>
      hA ((mem_needRemove oldCQ.spec cq.spec rf.name).mp hmem).1
    have hAd : rf.name ∈ needAdd oldCQ.spec cq.spec :=
      (mem_needAdd oldCQ.spec cq.spec rf.name).mpr ⟨hB, hA⟩
    have hsync : syncedFlavor oldCQ.spec cq.spec cq.name rf =
        applyRefChange cq.name false rf := by
      unfold syncedFlavor
      rw [if_neg hNR, if_pos hAd]
    rw [hsync]
    constructor
    · rw [mem_applyRefChange_add]
      exact Or.inr rfl
    · intro q hq
      rw [mem_applyRefChange_add]
      exact ⟨fun h => h.resolve_right hq, fun h => Or.inl h⟩
  · intro hA hB
    have hNR : rf.name ∉ needRemove oldCQ.spec cq.spec := fun hmem =>
      ((mem_needRemove oldCQ.spec cq.spec rf.name).mp hmem).2 hB
    have hNA : rf.name ∉ needAdd oldCQ.spec cq.spec := fun hmem =>
      ((mem_needAdd oldCQ.spec cq.spec rf.name).mp hmem).2 hA
    unfold syncedFlavor
    rw [if_neg hNR, if_neg hNA]

/-- C1 witness: the symmetric-difference property instantiated on the
concrete spec change `cqOldW → cqNewW` over the store `storeW` with no
faults. -/
theorem refSync_symmetric_difference_witness :
    List.Forall₂ (fun rf rf' =>
      rf'.name = rf.name ∧
      (rf.name ∈ flattenFlavors cqOldW.spec → rf.name ∉ flattenFlavors cqNewW.spec →
        cqNewW.name ∉ rf'.clusterQueues ∧
        ∀ q, q ≠ cqNewW.name → (q ∈ rf'.clusterQueues ↔ q ∈ rf.clusterQueues)) ∧
      (rf.name ∈ flattenFlavors cqNewW.spec → rf.name ∉ flattenFlavors cqOldW.spec →
        cqNewW.name ∈ rf'.clusterQueues ∧
        ∀ q, q ≠ cqNewW.name → (q ∈ rf'.clusterQueues ↔ q ∈ rf.clusterQueues)) ∧
      (rf.name ∈ flattenFlavors cqOldW.spec → rf.name ∈ flattenFlavors cqNewW.spec →
        rf' = rf))
      wNoFail.flavors (updateReferences cqOldW cqNewW wNoFail).1.flavors :=
  refSync_symmetric_difference cqOldW cqNewW wNoFail (by decide) (fun _ => rfl)

/-- C2 (corrected): persist failures never make reference
synchronization fail and never stop the other identifiers — a flavor
whose own persist succeeds gets its full outcome regardless of other
failures.  The operation fails exactly when one of its two list calls
fails; if the first fails nothing has been applied, if the second fails
the removals have been applied but no additions. -/
theorem refSync_failure_semantics (oldCQ cq : ClusterQueue) (w : World) :
    ((updateReferences oldCQ cq w).2 = true ↔
      (w.listFails w.listCalls = false ∧ w.listFails (w.listCalls + 1) = false)) ∧
    (w.listFails w.listCalls = true →
      (updateReferences oldCQ cq w).1.flavors = w.flavors) ∧
    (w.listFails w.listCalls = false → w.listFails (w.listCalls + 1) = true →
      (updateReferences oldCQ cq w).2 = false ∧
      (updateReferences oldCQ cq w).1.flavors =
        w.flavors.map
          (phaseFlavor cq.name true w.updateFails (needRemove oldCQ.spec cq.spec))) ∧
    List.Forall₂ (fun rf rf' =>
      (updateReferences oldCQ cq w).2 = true →
      w.updateFails rf.name = false →
      rf' = syncedFlavor oldCQ.spec cq.spec cq.name rf)
      w.flavors (updateReferences oldCQ cq w).1.flavors := by
  refine ⟨updateReferences_success_iff oldCQ cq w,
    updateReferences_flavors_firstFail oldCQ cq w,
    updateReferences_secondFail oldCQ cq w, ?_⟩
  by_cases hok : (updateReferences oldCQ cq w).2 = true
  · rw [updateReferences_flavors_success oldCQ cq w hok,
      List.forall₂_map_right_iff, List.forall₂_same]
    intro rf _ _ hf
    exact phase_comp_synced oldCQ.spec cq.spec cq.name w.updateFails rf hf
  · by_cases h1 : w.listFails w.listCalls = true
    · rw [updateReferences_flavors_firstFail oldCQ cq w h1, List.forall₂_same]
      intro rf _ hok'
      exact absurd hok' hok
    · have h1' : w.listFails w.listCalls = false := Bool.eq_false_iff.mpr h1
      have h2 : w.listFails (w.listCalls + 1) = true := by
        by_contra hc
        exact hok ((updateReferences_success_iff oldCQ cq w).mpr
          ⟨h1', Bool.eq_false_iff.mpr hc⟩)
      rw [(updateReferences_secondFail oldCQ cq w h1' h2).2,
        List.forall₂_map_right_iff, List.forall₂_same]
      intro rf _ hok'
      exact absurd hok' hok

/-- C2 witness: with the persist of `f1` failing, the synchronization of
the concrete spec change `cqOldW → cqNewW` still succeeds. -/
theorem refSync_failure_semantics_witness :
    (updateReferences cqOldW cqNewW wPersistFail).2 = true :=
  (refSync_failure_semantics cqOldW cqNewW wPersistFail).1.mpr ⟨rfl, rfl⟩

/-- C2 counterexample: the operation can fail although the initial list
call succeeded — and in that case removals have already been applied, so
the failure does not imply that nothing happened. -/
theorem refSync_initial_list_claim_cex :
    (updateReferences cqOldW cqNewW wSecondListFails).2 = false ∧
    wSecondListFails.listFails wSecondListFails.listCalls = false ∧
    (updateReferences cqOldW cqNewW wSecondListFails).1.flavors ≠
      wSecondListFails.flavors := by
  decide

/-- C9: whatever reference synchronization does to the store — including
partial failures — pairing the store before and after position-wise,
every flavor keeps its name and every referencing-set entry other than
the synchronizing queue's own name is preserved. -/
theorem refSync_frame_other_queues (oldCQ cq : ClusterQueue) (w : World) :
    List.Forall₂ (fun rf rf' =>
      rf'.name = rf.name ∧
      ∀ q, q ≠ cq.name → (q ∈ rf'.clusterQueues ↔ q ∈ rf.clusterQueues))
      w.flavors (updateReferences oldCQ cq w).1.flavors := by
  by_cases h1 : w.listFails w.listCalls = true
  · rw [updateReferences_flavors_firstFail oldCQ cq w h1, List.forall₂_same]
    intro rf _
    exact ⟨rfl, fun q _ => Iff.rfl⟩
  · have h1' : w.listFails w.listCalls = false := Bool.eq_false_iff.mpr h1
    by_cases h2 : w.listFails (w.listCalls + 1) = true
    · rw [(updateReferences_secondFail oldCQ cq w h1' h2).2,
        List.forall₂_map_right_iff, List.forall₂_same]
      intro rf _
      refine ⟨phaseFlavor_name cq.name true w.updateFails _ rf, fun q hq => ?_⟩
      exact frame_phaseFlavor cq.name true w.updateFails _ rf q hq
    · have hok : (updateReferences oldCQ cq w).2 = true :=
        (updateReferences_success_iff oldCQ cq w).mpr
          ⟨h1', Bool.eq_false_iff.mpr h2⟩
      rw [updateReferences_flavors_success oldCQ cq w hok,
        List.forall₂_map_right_iff, List.forall₂_same]
      intro rf _
      constructor
      · rw [phaseFlavor_name, phaseFlavor_name]
      · intro q hq
        rw [frame_phaseFlavor cq.name false w.updateFails _ _ q hq,
          frame_phaseFlavor cq.name true w.updateFails _ rf q hq]

/-- C9 witness: the frame property instantiated on the concrete spec
change `cqOldW → cqNewW` with the persist of `f1` failing. -/
theorem refSync_frame_other_queues_witness :
    List.Forall₂ (fun rf rf' =>
      rf'.name = rf.name ∧
      ∀ q, q ≠ cqNewW.name → (q ∈ rf'.clusterQueues ↔ q ∈ rf.clusterQueues))
      wPersistFail.flavors (updateReferences cqOldW cqNewW wPersistFail).1.flavors :=
  refSync_frame_other_queues cqOldW cqNewW wPersistFail

end ClusterQueueCtrl
